import Mathlib

/-!
# Verification of the image-handling pipeline (src/js/imageHandler.js)

A shallow embedding of the `ImageHandler` class: file descriptors, the
validation policy, batch processing with per-file failure isolation and
periodic yielding, data-URI preview generation, and the simulated upload.
Byte sources are modelled as `Option (List Nat)`: `none` is a byte source
whose asynchronous read fails (the `FileReader` firing `onerror`), `some bs`
a successful read of the content `bs`, one `Nat < 256` per byte.
-/

namespace RentingSite

/-- A browser `File` descriptor as the handler sees it: `name`, `size` in
bytes, MIME `type`, plus the underlying byte source (`bytes`). -/
structure JsFile where
  name : String
  size : Nat
  type : String
  bytes : Option (List Nat)
deriving DecidableEq, Inhabited

/-- Instance state set by the `ImageHandler` constructor
(src/js/imageHandler.js lines 7-10). -/
structure ImageHandler where
  maxFileSize : Nat := 5 * 1024 * 1024
  allowedTypes : List String :=
    ["image/jpeg", "image/jpg", "image/png", "image/gif", "image/webp"]
deriving DecidableEq

/-- The global instance `const imageHandler = new ImageHandler()` (line 157). -/
def imageHandler : ImageHandler := {}

/-- `(bytes / 1024 / 1024).toFixed(2)` from line 32.  For `bytes < 2 ^ 53` the
two divisions by powers of two are exact in IEEE double arithmetic, so the
value handed to `toFixed` is exactly the rational `bytes / 2 ^ 20`; ECMA-262
`toFixed(2)` then picks the integer `n` closest to that value times 100,
taking the larger `n` on a tie, and prints `n` with two decimal digits. -/
def mbToFixed2 (bytes : Nat) : String :=
  let num := bytes * 100
  let q := num / 1048576
  let r := num % 1048576
  let n := if 1048576 ≤ 2 * r then q + 1 else q
  let fr := n % 100
  toString (n / 100) ++ "." ++ (if fr < 10 then "0" ++ toString fr else toString fr)

/-- The template literal pushed on a type-check failure (line 26). -/
def typeErrorString (h : ImageHandler) (file : JsFile) : String :=
  "Invalid file type: " ++ file.type ++ ". Allowed types: " ++
    String.intercalate ", " h.allowedTypes

/-- The template literal pushed on a size-check failure (line 32). -/
def sizeErrorString (h : ImageHandler) (file : JsFile) : String :=
  "File too large: " ++ mbToFixed2 file.size ++ "MB. Maximum size: " ++
    mbToFixed2 h.maxFileSize ++ "MB"

/-- The object returned by `validateImage` (lines 18-21). -/
structure ValidationResult where
  valid : Bool
  errors : List String
deriving DecidableEq

/-- `validateImage` (lines 17-36): start from `{valid: true, errors: []}`,
then run the type check and the size check in order, each setting
`valid = false` and pushing its own error string when it fails. -/
def validateImage (h : ImageHandler) (file : JsFile) : ValidationResult :=
  let result : ValidationResult := { valid := true, errors := [] }
  let result :=
    if !h.allowedTypes.contains file.type then
      { valid := false, errors := result.errors ++ [typeErrorString h file] }
    else result
  if file.size > h.maxFileSize then
    { valid := false, errors := result.errors ++ [sizeErrorString h file] }
  else result

/-- A file violating both policy checks, used to instantiate the validator
theorems at a concrete input. -/
def badFile : JsFile :=
  { name := "big.bin", size := 6000000, type := "text/plain", bytes := some [] }

/-- Claim C2: a file whose MIME type is not allowed and whose size exceeds
`maxFileSize` fails validation with exactly two error entries: the two checks
are independent and non-short-circuiting. -/
theorem claim2_both_checks_two_errors (h : ImageHandler) (file : JsFile)
    (ht : h.allowedTypes.contains file.type = false)
    (hs : file.size > h.maxFileSize) :
    (validateImage h file).valid = false ∧
      (validateImage h file).errors.length = 2 := by
  have ht2 : file.type ∉ h.allowedTypes := by simpa using ht
  simp [validateImage, ht2, hs]

/-- Claim C2, instantiated at a concrete file violating both checks. -/
theorem claim2_witness :
    (validateImage imageHandler badFile).valid = false ∧
      (validateImage imageHandler badFile).errors.length = 2 :=
  claim2_both_checks_two_errors imageHandler badFile (by decide) (by decide)

/-- Claim C3: a file with a disallowed MIME type fails validation and the
error list holds the string
`Invalid file type: {type}. Allowed types: {comma-joined allowed list}`. -/
theorem claim3_type_error_format (h : ImageHandler) (file : JsFile)
    (ht : h.allowedTypes.contains file.type = false) :
    (validateImage h file).valid = false ∧
      typeErrorString h file ∈ (validateImage h file).errors := by
  have ht2 : file.type ∉ h.allowedTypes := by simpa using ht
  simp only [validateImage]
  split <;> simp [ht2]

/-- Claim C3, instantiated at a concrete file with a disallowed type. -/
theorem claim3_witness :
    (validateImage imageHandler badFile).valid = false ∧
      typeErrorString imageHandler badFile ∈
        (validateImage imageHandler badFile).errors :=
  claim3_type_error_format imageHandler badFile (by decide)

/-- Claim C4: a file with `size > maxFileSize` fails validation and the error
list holds `File too large: {size}MB. Maximum size: {max}MB` with both sizes
rendered in megabytes to two decimal places; the default policy is 5242880
bytes and the five listed image MIME types, whose maximum renders as `5.00`.
The bound `size < 2 ^ 53` keeps the modelled `toFixed` arithmetic exact. -/
theorem claim4_size_error_format (h : ImageHandler) (file : JsFile)
    (hs : file.size > h.maxFileSize) (_hrep : file.size < 2 ^ 53) :
    (validateImage h file).valid = false ∧
      sizeErrorString h file ∈ (validateImage h file).errors ∧
      imageHandler.maxFileSize = 5242880 ∧
      imageHandler.allowedTypes =
        ["image/jpeg", "image/jpg", "image/png", "image/gif", "image/webp"] ∧
      mbToFixed2 imageHandler.maxFileSize = "5.00" := by
  refine ⟨?_, ?_, rfl, rfl, by decide⟩
  · simp only [validateImage]
    rw [if_pos hs]
  · simp only [validateImage]
    rw [if_pos hs]
    split <;> simp

/-- Claim C4, instantiated at a concrete oversized file. -/
theorem claim4_witness :
    (validateImage imageHandler badFile).valid = false ∧
      sizeErrorString imageHandler badFile ∈
        (validateImage imageHandler badFile).errors ∧
      imageHandler.maxFileSize = 5242880 ∧
      imageHandler.allowedTypes =
        ["image/jpeg", "image/jpg", "image/png", "image/gif", "image/webp"] ∧
      mbToFixed2 imageHandler.maxFileSize = "5.00" :=
  claim4_size_error_format imageHandler badFile (by decide) (by decide)

/-- Claim C10: the validation result is internally consistent: `valid` is true
iff `errors` is empty, and when both checks fail the error list is exactly the
type error followed by the size error. -/
theorem claim10_valid_iff_no_errors (h : ImageHandler) (file : JsFile) :
    ((validateImage h file).valid = true ↔ (validateImage h file).errors = []) ∧
      (h.allowedTypes.contains file.type = false → h.maxFileSize < file.size →
        (validateImage h file).errors =
          [typeErrorString h file, sizeErrorString h file]) := by
  constructor
  · by_cases ht : file.type ∈ h.allowedTypes <;>
      by_cases hs : file.size > h.maxFileSize <;>
        simp [validateImage, ht, hs]
  · intro ht hs
    have ht2 : file.type ∉ h.allowedTypes := by simpa using ht
    simp [validateImage, ht2, hs]

/-- Claim C10, instantiated at a concrete file failing both checks. -/
theorem claim10_witness :
    ((validateImage imageHandler badFile).valid = true ↔
        (validateImage imageHandler badFile).errors = []) ∧
      (validateImage imageHandler badFile).errors =
        [typeErrorString imageHandler badFile,
          sizeErrorString imageHandler badFile] :=
  ⟨(claim10_valid_iff_no_errors imageHandler badFile).1,
    (claim10_valid_iff_no_errors imageHandler badFile).2 (by decide) (by decide)⟩

/-- Character with index `n` in the standard base64 alphabet
(A-Z, a-z, 0-9, `+`, `/`), for `n < 64`. -/
def sixToChar (n : Nat) : Char :=
  Char.ofNat
    (if n < 26 then n + 65
     else if n < 52 then n + 71
     else if n < 62 then n - 4
     else if n = 62 then 43
     else 47)

/-- Index of a character in the standard base64 alphabet (64 when absent). -/
def charToSix (c : Char) : Nat :=
  let n := c.toNat
  if 65 ≤ n ∧ n ≤ 90 then n - 65
  else if 97 ≤ n ∧ n ≤ 122 then n - 71
  else if 48 ≤ n ∧ n ≤ 57 then n + 4
  else if n = 43 then 62
  else if n = 47 then 63
  else 64

/-- Modelled from the spec: the base64 payload produced by the browser's
`FileReader.readAsDataURL` (spec section 4.2 and glossary) — the reader is a
platform API, not code under src/.  Standard alphabet, three bytes per four
characters, `=` padding for a trailing one- or two-byte group. -/
def b64encode : List Nat → List Char
  | [] => []
  | [a] => [sixToChar (a / 4), sixToChar (a % 4 * 16), '=', '=']
  | [a, b] =>
      [sixToChar (a / 4), sixToChar (a % 4 * 16 + b / 16),
        sixToChar (b % 16 * 4), '=']
  | a :: b :: c :: rest =>
      sixToChar (a / 4) :: sixToChar (a % 4 * 16 + b / 16) ::
        sixToChar (b % 16 * 4 + c / 64) :: sixToChar (c % 64) :: b64encode rest

/-- Decode one base64 quartet, honouring `=` padding. -/
def decodeGroup (c1 c2 c3 c4 : Char) : List Nat :=
  let s1 := charToSix c1
  let s2 := charToSix c2
  let s3 := charToSix c3
  let s4 := charToSix c4
  if c3 = '=' then [s1 * 4 + s2 / 16]
  else if c4 = '=' then [s1 * 4 + s2 / 16, s2 % 16 * 16 + s3 / 4]
  else [s1 * 4 + s2 / 16, s2 % 16 * 16 + s3 / 4, s3 % 4 * 64 + s4]

/-- Standard base64 decoding: four characters at a time. -/
def b64decode : List Char → List Nat
  | c1 :: c2 :: c3 :: c4 :: rest => decodeGroup c1 c2 c3 c4 ++ b64decode rest
  | _ => []

theorem charToSix_sixToChar_fin : ∀ s : Fin 64, charToSix (sixToChar s.val) = s.val := by
  decide

theorem sixToChar_ne_pad_fin : ∀ s : Fin 64, sixToChar s.val ≠ '=' := by
  decide

theorem charToSix_sixToChar (s : Nat) (hs : s < 64) :
    charToSix (sixToChar s) = s :=
  charToSix_sixToChar_fin ⟨s, hs⟩

theorem sixToChar_ne_pad (s : Nat) (hs : s < 64) : sixToChar s ≠ '=' :=
  sixToChar_ne_pad_fin ⟨s, hs⟩

/-- Base64 round-trip: decoding the encoding of a byte sequence recovers it. -/
theorem b64decode_b64encode (bs : List Nat) (hbs : ∀ b ∈ bs, b < 256) :
    b64decode (b64encode bs) = bs := by
  induction bs using b64encode.induct with
  | case1 =>
      simp [b64encode, b64decode]
  | case2 a =>
      have ha : a < 256 := hbs a (by simp)
      simp only [b64encode, b64decode, decodeGroup]
      rw [if_pos trivial]
      rw [charToSix_sixToChar (a / 4) (by omega),
        charToSix_sixToChar (a % 4 * 16) (by omega)]
      simp only [List.append_nil, List.cons.injEq, and_true]
      omega
  | case3 a b =>
      have ha : a < 256 := hbs a (by simp)
      have hb : b < 256 := hbs b (by simp)
      simp only [b64encode, b64decode, decodeGroup]
      rw [if_neg (sixToChar_ne_pad (b % 16 * 4) (by omega)), if_pos trivial]
      rw [charToSix_sixToChar (a / 4) (by omega),
        charToSix_sixToChar (a % 4 * 16 + b / 16) (by omega),
        charToSix_sixToChar (b % 16 * 4) (by omega)]
      simp only [List.append_nil, List.cons.injEq, and_true]
      exact ⟨by omega, by omega⟩
  | case4 a b c rest ih =>
      have ha : a < 256 := hbs a (by simp)
      have hb : b < 256 := hbs b (by simp)
      have hc : c < 256 := hbs c (by simp)
      have hrest : ∀ x ∈ rest, x < 256 := by
        intro x hx
        exact hbs x (by simp [hx])
      simp only [b64encode, b64decode, decodeGroup]
      rw [if_neg (sixToChar_ne_pad (b % 16 * 4 + c / 64) (by omega)),
        if_neg (sixToChar_ne_pad (c % 64) (by omega))]
      rw [charToSix_sixToChar (a / 4) (by omega),
        charToSix_sixToChar (a % 4 * 16 + b / 16) (by omega),
        charToSix_sixToChar (b % 16 * 4 + c / 64) (by omega),
        charToSix_sixToChar (c % 64) (by omega)]
      rw [ih hrest]
      simp only [List.cons_append, List.nil_append, List.cons.injEq]
      exact ⟨by omega, by omega, by omega, trivial⟩

/-- Modelled from the spec: the data URI returned by
`FileReader.readAsDataURL`, `data:<mime>;base64,<payload>` (spec sections 4.2
and 6, glossary); the URI is assembled by the platform reader, not by code
under src/. -/
def dataUrl (mime : String) (content : List Nat) : String :=
  "data:" ++ mime ++ ";base64," ++ String.mk (b64encode content)

/-- `createPreview` (lines 85-92): resolves with the reader's data URI, or
rejects with `Failed to create preview` when the read errors. -/
def createPreview (file : JsFile) : Except String String :=
  match file.bytes with
  | some content => Except.ok (dataUrl file.type content)
  | none => Except.error "Failed to create preview"

/-- `convertToDataUrl` (lines 99-106): same reader, rejecting with
`Failed to convert file` when the read errors. -/
def convertToDataUrl (file : JsFile) : Except String String :=
  match file.bytes with
  | some content => Except.ok (dataUrl file.type content)
  | none => Except.error "Failed to convert file"

/-- Claim C9: for a file whose read succeeds, `createPreview` returns
`data:<mime>;base64,<payload>` with `<mime>` the file's declared type, and
base64-decoding `<payload>` recovers exactly the original byte content. -/
theorem claim9_preview_roundtrip (file : JsFile) (content : List Nat)
    (hread : file.bytes = some content) (hbytes : ∀ b ∈ content, b < 256) :
    createPreview file =
      Except.ok ("data:" ++ file.type ++ ";base64," ++
        String.mk (b64encode content)) ∧
      b64decode (b64encode content) = content := by
  constructor
  · simp [createPreview, hread, dataUrl]
  · exact b64decode_b64encode content hbytes

/-- A small readable file used to instantiate the preview and upload
theorems: three bytes spelling `Man`. -/
def sampleFile : JsFile :=
  { name := "man.png", size := 3, type := "image/png", bytes := some [77, 97, 110] }

/-- Claim C9, instantiated at a concrete three-byte file. -/
theorem claim9_witness :
    createPreview sampleFile =
      Except.ok ("data:" ++ sampleFile.type ++ ";base64," ++
        String.mk (b64encode [77, 97, 110])) ∧
      b64decode (b64encode [77, 97, 110]) = [77, 97, 110] :=
  claim9_preview_roundtrip sampleFile [77, 97, 110] rfl (by decide)

/-- The record pushed onto `processedImages` for an accepted file
(lines 55-61). -/
structure ProcessedImage where
  file : JsFile
  previewUrl : String
  name : String
  size : Nat
  type : String
deriving DecidableEq

/-- The body of one iteration of the `processImages` loop (lines 48-69):
`some` record when the file passes validation and its preview resolves,
`none` when validation fails or the preview rejects (both non-fatal). -/
def processStep (h : ImageHandler) (file : JsFile) : Option ProcessedImage :=
  if (validateImage h file).valid then
    match createPreview file with
    | Except.ok previewUrl =>
        some { file := file, previewUrl := previewUrl, name := file.name,
               size := file.size, type := file.type }
    | Except.error _ => none
  else none

/-- `processImages` (lines 43-78) with the loop counter made explicit:
returns the accumulated records together with the list of loop indices at
which the loop awaited `setTimeout(resolve, 0)` (lines 71-74), i.e. the
suspension points handed back to the host scheduler. -/
def processImagesAux (h : ImageHandler) : List JsFile → Nat → List ProcessedImage × List Nat
  | [], _ => ([], [])
  | file :: rest, i =>
    let validation := validateImage h file
    let entry : List ProcessedImage :=
      if validation.valid then
        match createPreview file with
        | Except.ok previewUrl =>
            [{ file := file, previewUrl := previewUrl, name := file.name,
               size := file.size, type := file.type }]
        | Except.error _ => []
      else []
    let tail := processImagesAux h rest (i + 1)
    (entry ++ tail.1, (if i % 10 = 9 then [i] else []) ++ tail.2)

/-- The value `processImages` resolves with. -/
def processImages (h : ImageHandler) (files : List JsFile) : List ProcessedImage :=
  (processImagesAux h files 0).1

/-- The loop indices after which `processImages` suspends (line 72:
`i % 10 === 9`). -/
def processYields (h : ImageHandler) (files : List JsFile) : List Nat :=
  (processImagesAux h files 0).2

/-- The same loop with the periodic-yield branch (lines 71-74) deleted. -/
def processImagesNoYield (h : ImageHandler) : List JsFile → List ProcessedImage
  | [] => []
  | file :: rest =>
    let validation := validateImage h file
    let entry : List ProcessedImage :=
      if validation.valid then
        match createPreview file with
        | Except.ok previewUrl =>
            [{ file := file, previewUrl := previewUrl, name := file.name,
               size := file.size, type := file.type }]
        | Except.error _ => []
      else []
    entry ++ processImagesNoYield h rest

/-- The input files a batch result was built from, in result order. -/
def sourceFiles (images : List ProcessedImage) : List JsFile :=
  images.map ProcessedImage.file

/-- Whether every record in a batch result passes validation on its own. -/
def allValid (h : ImageHandler) (images : List ProcessedImage) : Bool :=
  images.all fun p => (validateImage h p.file).valid

/-- The loop indices `j < n` with `j % 10 = 9`: the schedule of suspension
points for a batch of `n` files. -/
def yieldSchedule (n : Nat) : List Nat :=
  (List.range n).filter fun j => j % 10 == 9

theorem processImagesAux_fst (h : ImageHandler) (files : List JsFile) :
    ∀ i, (processImagesAux h files i).1 = files.filterMap (processStep h) := by
  induction files with
  | nil => intro i; simp [processImagesAux]
  | cons f rest ih =>
      intro i
      by_cases hv : (validateImage h f).valid = true
      · cases hcp : createPreview f with
        | ok u => simp [processImagesAux, processStep, List.filterMap_cons, hv, hcp, ih]
        | error e => simp [processImagesAux, processStep, List.filterMap_cons, hv, hcp, ih]
      · simp [processImagesAux, processStep, List.filterMap_cons, hv, ih]

theorem processImages_eq_filterMap (h : ImageHandler) (files : List JsFile) :
    processImages h files = files.filterMap (processStep h) :=
  processImagesAux_fst h files 0

theorem processImagesNoYield_eq_filterMap (h : ImageHandler) (files : List JsFile) :
    processImagesNoYield h files = files.filterMap (processStep h) := by
  induction files with
  | nil => simp [processImagesNoYield]
  | cons f rest ih =>
      by_cases hv : (validateImage h f).valid = true
      · cases hcp : createPreview f with
        | ok u => simp [processImagesNoYield, processStep, List.filterMap_cons, hv, hcp, ih]
        | error e => simp [processImagesNoYield, processStep, List.filterMap_cons, hv, hcp, ih]
      · simp [processImagesNoYield, processStep, List.filterMap_cons, hv, ih]

theorem processImagesAux_snd (h : ImageHandler) (files : List JsFile) :
    ∀ i, (processImagesAux h files i).2 =
      (List.range' i files.length).filter fun j => j % 10 == 9 := by
  induction files with
  | nil => intro i; simp [processImagesAux]
  | cons f rest ih =>
      intro i
      rw [List.length_cons, List.range'_succ, List.filter_cons]
      by_cases hmod : i % 10 = 9
      · simp [processImagesAux, hmod, ih]
      · simp [processImagesAux, hmod, ih]

theorem processStep_some (h : ImageHandler) (f : JsFile) (p : ProcessedImage)
    (hp : processStep h f = some p) :
    p.file = f ∧ (validateImage h f).valid = true := by
  cases hv : (validateImage h f).valid with
  | false => simp [processStep, hv] at hp
  | true =>
      cases hcp : createPreview f with
      | ok u =>
          simp only [processStep, hv, if_true, hcp] at hp
          exact ⟨by rw [← Option.some_inj.mp hp], rfl⟩
      | error e => simp [processStep, hv, hcp] at hp

theorem sourceFiles_filterMap_sublist (h : ImageHandler) (files : List JsFile) :
    List.Sublist (sourceFiles (files.filterMap (processStep h))) files := by
  induction files with
  | nil => simp [sourceFiles]
  | cons f rest ih =>
      rw [List.filterMap_cons]
      cases hstep : processStep h f with
      | none => exact List.Sublist.cons f ih
      | some p =>
          have hf := (processStep_some h f p hstep).1
          simp only [sourceFiles, List.map_cons, hf]
          exact List.Sublist.cons₂ f ih

theorem filterMap_processStep_all_ok (h : ImageHandler) (l : List JsFile)
    (hl : ∀ f ∈ l, (validateImage h f).valid = true ∧ f.bytes.isSome = true) :
    sourceFiles (l.filterMap (processStep h)) = l ∧
      (l.filterMap (processStep h)).length = l.length := by
  induction l with
  | nil => simp [sourceFiles]
  | cons f rest ih =>
      obtain ⟨hv, hb⟩ := hl f (by simp)
      obtain ⟨bs, hbs⟩ := Option.isSome_iff_exists.mp hb
      have hcp : createPreview f = Except.ok (dataUrl f.type bs) := by
        simp [createPreview, hbs]
      have hstep : processStep h f =
          some { file := f, previewUrl := dataUrl f.type bs, name := f.name,
                 size := f.size, type := f.type } := by
        simp [processStep, hv, hcp]
      have hrest := ih fun g hg => hl g (by simp [hg])
      rw [List.filterMap_cons, hstep]
      simp [sourceFiles, hrest.1, hrest.2, sourceFiles] at hrest ⊢
      exact hrest

/-- Claim C1: the batch result is an order-preserving subsequence of the
input — at most as long as the input, and every record in it was built from
a file that passes validation on its own. -/
theorem claim1_output_subsequence_of_valid (h : ImageHandler) (files : List JsFile) :
    List.Sublist (sourceFiles (processImages h files)) files ∧
      (processImages h files).length ≤ files.length ∧
      allValid h (processImages h files) = true := by
  have hfm := processImages_eq_filterMap h files
  refine ⟨?_, ?_, ?_⟩
  · rw [hfm]
    exact sourceFiles_filterMap_sublist h files
  · have hle := (sourceFiles_filterMap_sublist h files).length_le
    rw [hfm]
    simpa [sourceFiles] using hle
  · rw [hfm, allValid, List.all_eq_true]
    intro p hp
    obtain ⟨f, _, hstep⟩ := List.mem_filterMap.mp hp
    obtain ⟨hpf, hv⟩ := processStep_some h f p hstep
    simp [hpf, hv]

/-- A file passing both checks with readable content, for instantiating the
batch theorems. -/
def goodFile : JsFile :=
  { name := "ok.png", size := 100, type := "image/png", bytes := some [1, 2, 3] }

/-- A file whose read fails (byte source errors), passing validation. -/
def noReadFile : JsFile :=
  { name := "ghost.png", size := 100, type := "image/png", bytes := none }

/-- Claim C6: on a batch of 25 files where the file at index 3 fails
validation and the file at index 7 passes validation but its preview
rejects, the result has exactly 23 entries and its source files are exactly
the other 23 inputs in their original relative order — neither failure
aborts the batch. -/
theorem claim6_per_file_failure_isolation (h : ImageHandler)
    (a : List JsFile) (f3 : JsFile) (b : List JsFile) (f7 : JsFile) (c : List JsFile)
    (ha : a.length = 3) (hb : b.length = 3) (hc : c.length = 17)
    (hgood : ∀ f ∈ a ++ b ++ c, (validateImage h f).valid = true ∧ f.bytes.isSome = true)
    (hf3 : (validateImage h f3).valid = false)
    (hf7 : (validateImage h f7).valid = true) (hf7b : f7.bytes = none) :
    (a ++ (f3 :: (b ++ (f7 :: c)))).length = 25 ∧
      (processImages h (a ++ (f3 :: (b ++ (f7 :: c))))).length = 23 ∧
      sourceFiles (processImages h (a ++ (f3 :: (b ++ (f7 :: c))))) = a ++ b ++ c := by
  have hstep3 : processStep h f3 = none := by
    simp [processStep, hf3]
  have hstep7 : processStep h f7 = none := by
    simp [processStep, hf7, createPreview, hf7b]
  have hga : ∀ f ∈ a, (validateImage h f).valid = true ∧ f.bytes.isSome = true :=
    fun f hf => hgood f (by simp [hf])
  have hgb : ∀ f ∈ b, (validateImage h f).valid = true ∧ f.bytes.isSome = true :=
    fun f hf => hgood f (by simp [hf])
  have hgc : ∀ f ∈ c, (validateImage h f).valid = true ∧ f.bytes.isSome = true :=
    fun f hf => hgood f (by simp [hf])
  have hfa := filterMap_processStep_all_ok h a hga
  have hfb := filterMap_processStep_all_ok h b hgb
  have hfc := filterMap_processStep_all_ok h c hgc
  have hsplit : processImages h (a ++ (f3 :: (b ++ (f7 :: c)))) =
      a.filterMap (processStep h) ++
        (b.filterMap (processStep h) ++ c.filterMap (processStep h)) := by
    rw [processImages_eq_filterMap]
    simp [List.filterMap_append, List.filterMap_cons, hstep3, hstep7]
  refine ⟨by simp [ha, hb, hc], ?_, ?_⟩
  · rw [hsplit]
    simp [hfa.2, hfb.2, hfc.2, ha, hb, hc]
  · rw [hsplit]
    have := hfa.1
    simp only [sourceFiles, List.map_append] at *
    rw [hfa.1, hfb.1, hfc.1, List.append_assoc]

/-- Claim C7: the loop suspends exactly after the indices `i` with
`i % 10 = 9`; on a batch of 25 files that are all valid and readable it
yields 25 records and suspends exactly after files 10 and 20 (indices 9 and
19); and deleting the yield branch leaves the result unchanged. -/
theorem claim7_periodic_yield (h : ImageHandler) (files : List JsFile)
    (hlen : files.length = 25)
    (hok : ∀ f ∈ files, (validateImage h f).valid = true ∧ f.bytes.isSome = true) :
    (processImages h files).length = 25 ∧
      processYields h files = [9, 19] ∧
      processYields h files = yieldSchedule files.length ∧
      processImages h files = processImagesNoYield h files := by
  have hsched : processYields h files = yieldSchedule files.length := by
    rw [processYields, processImagesAux_snd h files 0, yieldSchedule, List.range_eq_range']
  refine ⟨?_, ?_, hsched, ?_⟩
  · rw [processImages_eq_filterMap]
    rw [(filterMap_processStep_all_ok h files hok).2, hlen]
  · rw [hsched, hlen]
    decide
  · rw [processImages_eq_filterMap, processImagesNoYield_eq_filterMap]

/-- Claim C6, instantiated: 3 good files, an invalid file, 3 good files, an
unreadable file, 17 good files. -/
theorem claim6_witness :
    (List.replicate 3 goodFile ++
        (badFile :: (List.replicate 3 goodFile ++ (noReadFile :: List.replicate 17 goodFile)))).length = 25 ∧
      (processImages imageHandler
        (List.replicate 3 goodFile ++
          (badFile :: (List.replicate 3 goodFile ++ (noReadFile :: List.replicate 17 goodFile))))).length = 23 ∧
      sourceFiles (processImages imageHandler
        (List.replicate 3 goodFile ++
          (badFile :: (List.replicate 3 goodFile ++ (noReadFile :: List.replicate 17 goodFile))))) =
        List.replicate 3 goodFile ++ List.replicate 3 goodFile ++ List.replicate 17 goodFile :=
  claim6_per_file_failure_isolation imageHandler
    (List.replicate 3 goodFile) badFile (List.replicate 3 goodFile) noReadFile
    (List.replicate 17 goodFile)
    (by decide) (by decide) (by decide) (by decide) (by decide) (by decide) (by decide)

/-- Claim C7, instantiated at a batch of 25 copies of a valid readable
file. -/
theorem claim7_witness :
    (processImages imageHandler (List.replicate 25 goodFile)).length = 25 ∧
      processYields imageHandler (List.replicate 25 goodFile) = [9, 19] ∧
      processYields imageHandler (List.replicate 25 goodFile) =
        yieldSchedule (List.replicate 25 goodFile).length ∧
      processImages imageHandler (List.replicate 25 goodFile) =
        processImagesNoYield imageHandler (List.replicate 25 goodFile) :=
  claim7_periodic_yield imageHandler (List.replicate 25 goodFile) (by decide) (by decide)

/-- The per-file result object pushed by `uploadImages`: either the
`{success: true, url, filename, size}` object returned by `uploadImage`
(lines 123-128) or the `{success: false, error, filename}` object built in
the catch branch (lines 144-148). -/
inductive UploadResult where
  | success (url : String) (filename : String) (size : Nat)
  | failure (error : String) (filename : String)
deriving DecidableEq

/-- `uploadImage` (lines 114-129): after the simulated 500-unit network
delay, converts the file to a data URL and resolves with the success object;
the promise rejects exactly when `convertToDataUrl` rejects. -/
def uploadImage (file : JsFile) : Except String UploadResult :=
  match convertToDataUrl file with
  | Except.ok dUrl => Except.ok (UploadResult.success dUrl file.name file.size)
  | Except.error e => Except.error e

/-- `uploadImages` (lines 136-153): one result per file, in input order; a
rejection from `uploadImage` is caught and recorded as a failure object
carrying the error message and the file's name. -/
def uploadImages (files : List JsFile) : List UploadResult :=
  files.map fun file =>
    match uploadImage file with
    | Except.ok result => result
    | Except.error e => UploadResult.failure e file.name

/-- Whether a batch entry is the `{success: true, ...}` variant. -/
def UploadResult.isSuccess : UploadResult → Bool
  | UploadResult.success _ _ _ => true
  | UploadResult.failure _ _ => false

/-- Whether every entry of a batch result is a success. -/
def allSuccess (results : List UploadResult) : Bool :=
  results.all UploadResult.isSuccess

/-- Whether a single upload rejected. -/
def uploadIsError : Except String UploadResult → Bool
  | Except.ok _ => false
  | Except.error _ => true

theorem uploadImage_of_bytes (f : JsFile) (bs : List Nat) (hb : f.bytes = some bs) :
    uploadImage f =
      Except.ok (UploadResult.success (dataUrl f.type bs) f.name f.size) := by
  simp [uploadImage, convertToDataUrl, hb]

theorem allSuccess_uploadImages_of_readable (l : List JsFile)
    (hl : ∀ f ∈ l, f.bytes.isSome = true) :
    allSuccess (uploadImages l) = true := by
  rw [allSuccess, List.all_eq_true]
  intro r hr
  obtain ⟨f, hf, hfr⟩ := List.mem_map.mp hr
  obtain ⟨bs, hbs⟩ := Option.isSome_iff_exists.mp (hl f hf)
  rw [← hfr, uploadImage_of_bytes f bs hbs]
  rfl

/-- Claim C5: on a batch where exactly the file between `a` and `b` is
unreadable, `uploadImages` returns one entry per input file in input order:
the entries for `a` and `b` are all successes and the middle entry is the
failure object carrying the unreadable file's name — the batch never aborts
early. -/
theorem claim5_upload_batch_isolation (a : List JsFile) (fk : JsFile) (b : List JsFile)
    (hfk : fk.bytes = none)
    (ha : ∀ f ∈ a, f.bytes.isSome = true) (hb : ∀ f ∈ b, f.bytes.isSome = true) :
    (uploadImages (a ++ (fk :: b))).length = (a ++ (fk :: b)).length ∧
      uploadImages (a ++ (fk :: b)) =
        uploadImages a ++
          (UploadResult.failure "Failed to convert file" fk.name :: uploadImages b) ∧
      allSuccess (uploadImages a) = true ∧ allSuccess (uploadImages b) = true := by
  have hmid : uploadImage fk = Except.error "Failed to convert file" := by
    simp [uploadImage, convertToDataUrl, hfk]
  refine ⟨by simp [uploadImages], ?_,
    allSuccess_uploadImages_of_readable a ha, allSuccess_uploadImages_of_readable b hb⟩
  simp [uploadImages, hmid]

/-- Claim C5, instantiated: a readable file, an unreadable file, a readable
file. -/
theorem claim5_witness :
    (uploadImages ([goodFile] ++ (noReadFile :: [sampleFile]))).length =
        ([goodFile] ++ (noReadFile :: [sampleFile])).length ∧
      uploadImages ([goodFile] ++ (noReadFile :: [sampleFile])) =
        uploadImages [goodFile] ++
          (UploadResult.failure "Failed to convert file" noReadFile.name ::
            uploadImages [sampleFile]) ∧
      allSuccess (uploadImages [goodFile]) = true ∧
      allSuccess (uploadImages [sampleFile]) = true :=
  claim5_upload_batch_isolation [goodFile] noReadFile [sampleFile]
    rfl (by decide) (by decide)

/-- Claim C8: `uploadImage` rejects exactly when the byte-source read fails,
and on a successful read it resolves with the success object whose `url` is
the same data URI `createPreview` produces for the file, whose `filename` is
the file's name and whose `size` is the file's size. -/
theorem claim8_upload_fails_iff_read_fails (file : JsFile) (content : List Nat) :
    (uploadIsError (uploadImage file) = true ↔ file.bytes = none) ∧
      (file.bytes = some content →
        uploadImage file =
          Except.ok (UploadResult.success (dataUrl file.type content) file.name file.size) ∧
          createPreview file = Except.ok (dataUrl file.type content)) := by
  constructor
  · cases hb : file.bytes with
    | none => simp [uploadImage, convertToDataUrl, hb, uploadIsError]
    | some bs => simp [uploadImage, convertToDataUrl, hb, uploadIsError]
  · intro hb
    exact ⟨uploadImage_of_bytes file content hb, by simp [createPreview, hb]⟩

/-- Claim C8, instantiated at a concrete readable file. -/
theorem claim8_witness :
    (uploadIsError (uploadImage sampleFile) = true ↔ sampleFile.bytes = none) ∧
      (uploadImage sampleFile =
        Except.ok (UploadResult.success (dataUrl sampleFile.type [77, 97, 110])
          sampleFile.name sampleFile.size) ∧
        createPreview sampleFile =
          Except.ok (dataUrl sampleFile.type [77, 97, 110])) :=
  ⟨(claim8_upload_fails_iff_read_fails sampleFile [77, 97, 110]).1,
    (claim8_upload_fails_iff_read_fails sampleFile [77, 97, 110]).2 rfl⟩

end RentingSite
